import Mathlib

/-!
Shallow embedding of the race-timing core of `src/app.py` (class `RaceManager`
and the Streamlit handlers that call into it).

Modelling conventions:
* Python `float` timestamps and durations are modelled as rationals (`ℚ`);
  `time.time()` readings are passed in as explicit `now` arguments.
* The Python dict `contestants` (insertion ordered, unique keys) is an
  association list; assignment `d[k] = v` updates the first entry with key `k`
  in place, or appends a fresh entry when the key is absent.
* `random.randint(100000, 999999)` in `register` is modelled by passing the
  drawn number as an explicit argument `rid`.
* Python truthiness of an optional float (`if ft:`) is `optTruthy`:
  `None` and `0.0` are falsy, everything else truthy.
* `pandas.DataFrame.sort_values(by="成绩")` in the admin dashboard sorts rows
  ascending by code-point lexicographic comparison of the formatted score
  strings; `lexLt` / `sortRows` model that comparison and sort.
-/

/-- One registered contestant, as stored in `RaceManager.contestants`
(`{'name': str, 'group': str, 'finish_time': float-or-None}`). -/
structure Contestant where
  name : String
  group : String
  finish_time : Option ℚ
deriving DecidableEq

abbrev ContestantMap := List (String × Contestant)

/-- Python dict lookup `d.get(k)` / `d[k]` on the contestants mapping. -/
def dictGet (k : String) : ContestantMap → Option Contestant
  | [] => none
  | p :: ps => if p.1 = k then some p.2 else dictGet k ps

/-- Python dict assignment `d[k] = v`: replace the entry in place if the key
is present, otherwise append. -/
def dictSet (k : String) (v : Contestant) : ContestantMap → ContestantMap
  | [] => [(k, v)]
  | p :: ps => if p.1 = k then (k, v) :: ps else p :: dictSet k v ps

/-- The shared state of `RaceManager.__init__`. -/
structure RaceManager where
  contestants : ContestantMap
  start_time : Option ℚ
  is_running : Bool
deriving DecidableEq

/-- The state produced by `RaceManager.__init__`. -/
def initManager : RaceManager :=
  { contestants := [], start_time := none, is_running := false }

/-- Python truthiness of an optional float: `None` and `0.0` are falsy. -/
def optTruthy : Option ℚ → Bool
  | none => false
  | some t => decide (t ≠ 0)

/-- `RaceManager.register(name, group)`: store a fresh contestant under the
string of the drawn 6-digit number and return that id.  The source draws
`rid` with `random.randint(100000, 999999)` and performs no uniqueness check
against contestants already in the store. -/
def register (s : RaceManager) (name group : String) (rid : ℕ) :
    RaceManager × String :=
  let user_id := toString rid
  let fresh : Contestant := { name := name, group := group, finish_time := none }
  ({ s with contestants := dictSet user_id fresh s.contestants }, user_id)

/-- `RaceManager.start_race()`: unconditionally set `is_running = True` and
restamp `start_time = time.time()`. -/
def start_race (s : RaceManager) (now : ℚ) : RaceManager :=
  { s with is_running := true, start_time := some now }

/-- `RaceManager.reset_race()`: clear the running flag, the start timestamp
and all contestants. -/
def reset_race (_ : RaceManager) : RaceManager :=
  { contestants := [], start_time := none, is_running := false }

/-- `RaceManager.record_finish(user_id)`: returns the tuple
`(success, name-or-message, duration)` together with the successor state.
The guard is `if user_id in self.contestants and self.start_time:`; both an
unknown id and a falsy `start_time` fall through to `(False, "无效ID", 0)`. -/
def record_finish (s : RaceManager) (user_id : String) (now : ℚ) :
    RaceManager × Bool × String × ℚ :=
  match dictGet user_id s.contestants with
  | some info =>
      if optTruthy s.start_time then
        match info.finish_time with
        | none =>
            let start := (s.start_time).getD 0
            let duration := now - start
            let finished : Contestant := { info with finish_time := some duration }
            ({ s with contestants := dictSet user_id finished s.contestants },
              true, info.name, duration)
        | some ft => (s, false, "已录入成绩", ft)
      else (s, false, "无效ID", 0)
  | none => (s, false, "无效ID", 0)

/-- Python `%` on floats with a positive divisor: `a % b = a - b * ⌊a / b⌋`,
always in `[0, b)`. -/
def pyMod (a b : ℚ) : ℚ := a - b * ⌊a / b⌋

/-- Python `f"{n:02d}"`: decimal rendering, zero-padded to width 2. -/
def pad2 (n : ℤ) : String :=
  if (toString n).length < 2 then "0" ++ toString n else toString n

/-- `RaceManager.format_time(seconds)`: `None` renders as `"00:00.00"`;
otherwise `mins = int(seconds // 60)`, `secs = int(seconds % 60)`,
`millis = int((seconds * 100) % 100)` rendered as `f"{mins:02d}:{secs:02d}.{millis:02d}"`. -/
def format_time : Option ℚ → String
  | none => "00:00.00"
  | some seconds =>
      pad2 ⌊seconds / 60⌋ ++ ":" ++ pad2 ⌊pyMod seconds 60⌋ ++ "." ++
        pad2 ⌊pyMod (seconds * 100) 100⌋

/-- One row of the dataframe built by `RaceManager.get_dataframe`. -/
structure Row where
  name : String
  group : String
  score : String
  status : String
deriving DecidableEq

/-- The row `get_dataframe` appends for one stored contestant:
`ft_str = self.format_time(ft) if ft else "--:--"` and the status column is
`"已完成" if ft else "进行中/未开启"`-style truthiness on the finish time. -/
def rowOf (info : Contestant) : Row :=
  { name := info.name
    group := info.group
    score := if optTruthy info.finish_time then format_time info.finish_time
             else "--:--"
    status := if optTruthy info.finish_time then "已完成" else "进行中/未开始" }

/-- `RaceManager.get_dataframe()`: one row per stored contestant, in the
dict's insertion order. -/
def get_dataframe (s : RaceManager) : List Row :=
  s.contestants.map fun p => rowOf p.2

/-- Code-point lexicographic `<` on char lists: the comparison Python (and
hence `sort_values` on a string column) uses on strings. -/
def lexLt : List Char → List Char → Bool
  | _, [] => false
  | [], _ :: _ => true
  | a :: as, b :: bs => if a < b then true else if b < a then false else lexLt as bs

/-- Python string `<` via code points. -/
def strLt (a b : String) : Bool := lexLt a.data b.data

/-- Insert a row into a list sorted ascending by the score string. -/
def insertRow (x : Row) : List Row → List Row
  | [] => [x]
  | y :: ys => if strLt x.score y.score then x :: y :: ys else y :: insertRow x ys

/-- Ascending stable sort by the score string: the model of
`df.sort_values(by="成绩")` in the admin dashboard. -/
def sortRows : List Row → List Row
  | [] => []
  | x :: xs => insertRow x (sortRows xs)

/-- The admin dashboard leaderboard: `get_dataframe` followed by
`sort_values(by="成绩")`. -/
def leaderboard (s : RaceManager) : List Row := sortRows (get_dataframe s)

/-- Row `a` sorts no later than row `b`: `b`'s score string is not
lexicographically below `a`'s. -/
def scoreLE (a b : Row) : Prop := strLt b.score a.score = false

/-- A concrete store with recorded finish times 12.34 s, 5.01 s, none and
7.00 s, used to evaluate the leaderboard ordering. -/
def c3State : RaceManager :=
  { contestants :=
      [("100001", ⟨"A", "组1", some (1234/100)⟩),
       ("100002", ⟨"B", "组2", some (501/100)⟩),
       ("100003", ⟨"C", "组3", none⟩),
       ("100004", ⟨"D", "组4", some 7⟩)],
    start_time := some 1, is_running := true }

/-- Outcome shown by the registration form submit handler. -/
inductive RegResult where
  | ok (uid : String)
  | validationError (msg : String)
deriving DecidableEq

/-- The registration page submit handler: `if name:` register and hand out the
id, `else: st.error("请填写姓名")` with no store mutation. -/
def register_submit (s : RaceManager) (name group : String) (rid : ℕ) :
    RaceManager × RegResult :=
  if name = "" then (s, RegResult.validationError "请填写姓名")
  else
    let r := register s name group rid
    (r.1, RegResult.ok r.2)

/-- The admin dashboard start button: rendered with
`disabled=manager.is_running`, so a click reaches `start_race` only when the
race is not already running. -/
def admin_start_click (s : RaceManager) (now : ℚ) : RaceManager :=
  if s.is_running then s else start_race s now

/-- One store operation, as invocable from the pages of the app. -/
inductive Step : RaceManager → RaceManager → Prop
  | reg (s : RaceManager) (name group : String) (rid : ℕ) :
      Step s (register s name group rid).1
  | start (s : RaceManager) (now : ℚ) : Step s (start_race s now)
  | reset (s : RaceManager) : Step s (reset_race s)
  | finish (s : RaceManager) (uid : String) (now : ℚ) :
      Step s (record_finish s uid now).1

/-- States reachable from the freshly constructed manager by store
operations. -/
inductive Reachable : RaceManager → Prop
  | init : Reachable initManager
  | step {s t : RaceManager} : Reachable s → Step s t → Reachable t

/-! ### Shared evaluation lemmas -/

theorem ftEval_7 : format_time (some 7) = "00:07.00" := by
  norm_num [format_time, pyMod, pad2]; rfl

theorem ftEval_5s01 : format_time (some (501/100)) = "00:05.01" := by
  norm_num [format_time, pyMod, pad2]; rfl

theorem ftEval_12s34 : format_time (some (1234/100)) = "00:12.34" := by
  norm_num [format_time, pyMod, pad2]; rfl

theorem ftEval_65s239 : format_time (some (65239/1000)) = "01:05.23" := by
  norm_num [format_time, pyMod, pad2]; rfl

theorem ftEval_0 : format_time (some 0) = "00:00.00" := by
  norm_num [format_time, pyMod, pad2]; rfl

/-! ### Claims -/

/-- C1: the claim says `register` checks the freshly drawn id for uniqueness
against live contestants before accepting it.  The code does not: evaluating
`register` on a store that already holds a contestant under id `"100000"`,
with the (valid) draw `100000`, returns the id of a live contestant and
silently overwrites that contestant. -/
theorem C1_duplicate_id_eval :
    100000 ≤ 100000 ∧ 100000 ≤ 999999 ∧
    (register (RaceManager.mk [("100000", ⟨"Alice", "组1", none⟩)] none false)
        "Bob" "组2" 100000).2 = "100000" ∧
    dictGet "100000"
        (RaceManager.mk [("100000", ⟨"Alice", "组1", none⟩)] none false).contestants =
      some ⟨"Alice", "组1", none⟩ ∧
    dictGet "100000"
        (register (RaceManager.mk [("100000", ⟨"Alice", "组1", none⟩)] none false)
          "Bob" "组2" 100000).1.contestants =
      some ⟨"Bob", "组2", none⟩ := by
  have hts : toString (100000 : ℕ) = "100000" := by rfl
  refine ⟨by norm_num, by norm_num, by rfl, by simp [dictGet], ?_⟩
  simp [register, dictSet, dictGet, hts]

/-- C2 counterexample: with the race not started, `record_finish` on an id
that IS present returns exactly the same outcome `(False, "无效ID", 0)` as on
an id that is absent — there is no distinct `RaceNotStarted` outcome, and for
a present id the invalid-id outcome is the result. -/
theorem C2_counterexample :
    record_finish (RaceManager.mk [("123456", ⟨"Alice", "组1", none⟩)] none false)
        "123456" 5 =
      (RaceManager.mk [("123456", ⟨"Alice", "组1", none⟩)] none false,
        false, "无效ID", 0) ∧
    record_finish (RaceManager.mk [("123456", ⟨"Alice", "组1", none⟩)] none false)
        "000000" 5 =
      (RaceManager.mk [("123456", ⟨"Alice", "组1", none⟩)] none false,
        false, "无效ID", 0) := by
  constructor <;> simp [record_finish, dictGet, optTruthy]

/-- C2 (amended): whenever the race clock is not set (`start_time` falsy),
`record_finish` sets no finish time, leaves the store unchanged, and returns
the same `(False, "无效ID", 0)` outcome that an unknown id produces; the code
has no outcome distinct from the invalid-id one for this case. -/
theorem C2_not_started (s : RaceManager) (uid : String) (now : ℚ)
    (h : optTruthy s.start_time = false) :
    record_finish s uid now = (s, false, "无效ID", 0) := by
  unfold record_finish
  cases hg : dictGet uid s.contestants with
  | none => rfl
  | some info => simp [h]

/-- C2 witness: the amended theorem applied at a concrete not-started state. -/
theorem C2_witness :
    optTruthy (RaceManager.mk [("123456", ⟨"Alice", "组1", none⟩)] none false).start_time
      = false ∧
    record_finish (RaceManager.mk [("123456", ⟨"Alice", "组1", none⟩)] none false)
        "123456" 5 =
      (RaceManager.mk [("123456", ⟨"Alice", "组1", none⟩)] none false,
        false, "无效ID", 0) :=
  ⟨rfl, C2_not_started _ "123456" 5 rfl⟩

/-- C4 counterexample: a `none` duration renders as `"00:00.00"` itself —
identical to the rendering of a zero duration, not a distinct sentinel. -/
theorem C4_counterexample :
    format_time none = "00:00.00" ∧ format_time none = format_time (some 0) := by
  constructor
  · rfl
  · rw [ftEval_0]
    rfl

/-- C4 (amended): the formatter renders a fractional duration as zero-padded
`MM:SS.CC` with sub-centisecond precision truncated (65.239 s → `"01:05.23"`,
0 s → `"00:00.00"`), but a `none` duration renders as `"00:00.00"` itself; the
distinct sentinel `"--:--"` is produced by the snapshot projection for falsy
finish times, not by the formatter. -/
theorem C4_format_time :
    format_time (some (65239/1000)) = "01:05.23" ∧
    format_time (some 0) = "00:00.00" ∧
    format_time none = "00:00.00" :=
  ⟨ftEval_65s239, ftEval_0, rfl⟩

/-- C5 counterexample: with the race already running (started at 10), calling
`start_race` again at 20 restamps `start_time` to 20 — starting twice resets
the clock at the store level. -/
theorem C5_counterexample :
    (start_race initManager 10).is_running = true ∧
    (start_race initManager 10).start_time = some 10 ∧
    (start_race (start_race initManager 10) 20).start_time = some 20 ∧
    some (20:ℚ) ≠ some (10:ℚ) := by
  refine ⟨rfl, rfl, rfl, ?_⟩
  simp only [ne_eq, Option.some.injEq]
  norm_num

/-- C5 (amended): `start_race` itself is not guarded — it unconditionally sets
`is_running` and restamps `start_time := now`, even when already running; the
idempotency protection lives only in the admin surface, whose start button is
disabled while the race is running, so a click there is a no-op when
`is_running` holds. -/
theorem C5_start_guard :
    (∀ (s : RaceManager) (now : ℚ),
        start_race s now = { s with is_running := true, start_time := some now }) ∧
    (∀ (s : RaceManager) (now : ℚ), s.is_running = true →
        admin_start_click s now = s) := by
  refine ⟨fun s now => rfl, fun s now h => ?_⟩
  simp [admin_start_click, h]

/-- C5 witness: the amended theorem applied at a concrete running state. -/
theorem C5_witness :
    start_race initManager 10 =
      { initManager with is_running := true, start_time := some (10:ℚ) } ∧
    admin_start_click (start_race initManager 10) 20 = start_race initManager 10 :=
  ⟨C5_start_guard.1 initManager 10, C5_start_guard.2 (start_race initManager 10) 20 rfl⟩

/-- C6 counterexample: re-scanning a finished contestant named `"Alice"`
returns the fixed marker string `"已录入成绩"` in the name slot of the outcome
tuple, not the contestant's name. -/
theorem C6_counterexample :
    record_finish (RaceManager.mk [("111111", ⟨"Alice", "组1", some 5⟩)] (some 1) true)
        "111111" 9 =
      (RaceManager.mk [("111111", ⟨"Alice", "组1", some 5⟩)] (some 1) true,
        false, "已录入成绩", 5) ∧
    (dictGet "111111"
        (RaceManager.mk [("111111", ⟨"Alice", "组1", some 5⟩)] (some 1) true).contestants).map
      Contestant.name = some "Alice" ∧
    "已录入成绩" ≠ "Alice" := by
  refine ⟨?_, by simp [dictGet], by decide⟩
  simp [record_finish, dictGet, optTruthy]

/-- C6 (amended): once a contestant's `finish_time` is set, any further
`record_finish` on that id (with the race clock set) leaves the whole store —
in particular the stored finish time — unchanged and returns the
already-finished outcome carrying the fixed marker string `"已录入成绩"` and
the previously recorded time (not the contestant's name). -/
theorem C6_already_finished (s : RaceManager) (uid : String) (info : Contestant)
    (ft : ℚ) (now : ℚ)
    (hget : dictGet uid s.contestants = some info)
    (hft : info.finish_time = some ft)
    (hrun : optTruthy s.start_time = true) :
    record_finish s uid now = (s, false, "已录入成绩", ft) := by
  unfold record_finish
  rw [hget]
  simp [hrun, hft]

/-- C6 witness: the amended theorem applied at a concrete finished state. -/
theorem C6_witness :
    dictGet "111111"
        (RaceManager.mk [("111111", ⟨"Alice", "组1", some 5⟩)] (some 1) true).contestants
      = some ⟨"Alice", "组1", some 5⟩ ∧
    record_finish (RaceManager.mk [("111111", ⟨"Alice", "组1", some 5⟩)] (some 1) true)
        "111111" 9 =
      (RaceManager.mk [("111111", ⟨"Alice", "组1", some 5⟩)] (some 1) true,
        false, "已录入成绩", 5) :=
  ⟨by simp [dictGet],
    C6_already_finished _ "111111" ⟨"Alice", "组1", some 5⟩ 5 9 (by simp [dictGet]) rfl
      (by norm_num [optTruthy])⟩

/-- C8: submitting the registration form with an empty name is rejected by
the page handler (`if name:` fails), yields the validation error message, and
causes no store mutation. -/
theorem C8_empty_name_rejected (s : RaceManager) (group : String) (rid : ℕ) :
    register_submit s "" group rid = (s, RegResult.validationError "请填写姓名") := by
  simp [register_submit]

/-- C10: the snapshot projection decides "finished" by Python truthiness of
the stored finish time, so a contestant whose recorded finish time is exactly
0.0 gets the unfinished sentinel `"--:--"` and status `"进行中/未开始"`, and
its row is literally identical to the row of an unfinished contestant. -/
theorem C10_zero_finish_indistinguishable (name group : String) :
    rowOf ⟨name, group, some 0⟩ =
      { name := name, group := group, score := "--:--", status := "进行中/未开始" } ∧
    rowOf ⟨name, group, some 0⟩ = rowOf ⟨name, group, none⟩ := by
  constructor <;> simp [rowOf, optTruthy]

/-! ### Helper lemmas about the store operations -/

theorem dictGet_dictSet_self (k : String) (v : Contestant) (m : ContestantMap) :
    dictGet k (dictSet k v m) = some v := by
  induction m with
  | nil => simp [dictGet, dictSet]
  | cons p ps ih =>
      by_cases h : p.1 = k
      · simp [dictGet, dictSet, h]
      · simp [dictGet, dictSet, h, ih]

theorem record_finish_preserves (s : RaceManager) (uid : String) (now : ℚ) :
    ((record_finish s uid now).1).start_time = s.start_time ∧
    ((record_finish s uid now).1).is_running = s.is_running := by
  unfold record_finish
  cases dictGet uid s.contestants with
  | none => exact ⟨rfl, rfl⟩
  | some info =>
      by_cases h : optTruthy s.start_time = true
      · cases hft : info.finish_time with
        | none => simp [h, hft]
        | some ft => simp [h, hft]
      · simp [h]

theorem record_finish_success (s : RaceManager) (uid : String) (now st : ℚ)
    (info : Contestant)
    (hst : s.start_time = some st) (htr : optTruthy s.start_time = true)
    (hget : dictGet uid s.contestants = some info)
    (hfin : info.finish_time = none) :
    record_finish s uid now =
      ({ s with contestants :=
          dictSet uid { info with finish_time := some (now - st) } s.contestants },
        true, info.name, now - st) := by
  unfold record_finish
  rw [hget, hst] at *
  rw [hst] at htr
  simp [htr, hfin]

theorem step_invariant {s t : RaceManager} (hstep : Step s t)
    (ih : s.is_running = true ↔ s.start_time ≠ none) :
    t.is_running = true ↔ t.start_time ≠ none := by
  cases hstep with
  | reg name group rid => simpa [register] using ih
  | start now => simp [start_race]
  | reset => simp [reset_race]
  | finish uid now =>
      have hp := record_finish_preserves s uid now
      rw [hp.1, hp.2]
      exact ih

/-! ### Remaining claims -/

/-- C9: `reset_race` unconditionally returns the store to the initial state
from every state, the leaderboard snapshot taken right after a reset is
empty, and in every reachable state `is_running` is `true` iff `start_time`
is set. -/
theorem C9_reset_and_invariant :
    (∀ s : RaceManager, reset_race s = initManager) ∧
    (∀ s : RaceManager, leaderboard (reset_race s) = []) ∧
    (∀ s : RaceManager, Reachable s → (s.is_running = true ↔ s.start_time ≠ none)) := by
  refine ⟨fun s => rfl, fun s => rfl, fun s h => ?_⟩
  induction h with
  | init => simp [initManager]
  | step hr hstep ih => exact step_invariant hstep ih

/-- C9 witness: the theorem applied to a concrete started state and to the
reachable initial state. -/
theorem C9_witness :
    reset_race (start_race initManager 3) = initManager ∧
    leaderboard (reset_race (start_race initManager 3)) = [] ∧
    (initManager.is_running = true ↔ initManager.start_time ≠ none) :=
  ⟨C9_reset_and_invariant.1 _, C9_reset_and_invariant.2.1 _,
    C9_reset_and_invariant.2.2 initManager Reachable.init⟩

/-- C7 counterexample: in the reachable state obtained by registering Alice,
starting at time 1, recording her finish at time 11 (stored finish time 10),
and starting the race again at time 21, her stored finish time 10 no longer
equals the scan timestamp minus the current `start_time` (11 − 21 = −10):
a later `start_race` restamps the clock without clearing finish times. -/
theorem C7_counterexample :
    (dictGet "100000"
        (start_race
          ((record_finish
            (start_race ((register initManager "Alice" "组1" 100000).1) 1)
            "100000" 11).1) 21).contestants).map Contestant.finish_time
      = some (some 10) ∧
    (start_race
        ((record_finish
          (start_race ((register initManager "Alice" "组1" 100000).1) 1)
          "100000" 11).1) 21).start_time = some 21 ∧
    ¬ ((10:ℚ) = 11 - 21) := by
  have hts : toString (100000 : ℕ) = "100000" := by rfl
  refine ⟨?_, by rfl, by norm_num⟩
  simp [register, start_race, record_finish, dictGet, dictSet, optTruthy,
    initManager, hts]
  norm_num

/-- C7 (amended): at the moment of recording, a finish is stored as the scan
timestamp minus the current `start_time`, and is nonnegative provided the
scan does not precede the start; a scan with the race clock unset is rejected
and mutates nothing.  The relation is with the `start_time` in force at
recording time only — a later `start_race` restamps the clock without
clearing stored finish times (see the counterexample). -/
theorem C7_finish_relation :
    (∀ (s : RaceManager) (uid : String) (now st : ℚ) (info : Contestant),
        s.start_time = some st → optTruthy s.start_time = true →
        dictGet uid s.contestants = some info → info.finish_time = none →
        st ≤ now →
        dictGet uid ((record_finish s uid now).1).contestants =
          some { info with finish_time := some (now - st) } ∧
        (record_finish s uid now).2.2.2 = now - st ∧
        0 ≤ now - st) ∧
    (∀ (s : RaceManager) (uid : String) (now : ℚ),
        optTruthy s.start_time = false → (record_finish s uid now).1 = s) := by
  constructor
  · intro s uid now st info hst htr hget hfin hle
    rw [record_finish_success s uid now st info hst htr hget hfin]
    refine ⟨?_, rfl, by linarith⟩
    exact dictGet_dictSet_self uid _ s.contestants
  · intro s uid now h
    unfold record_finish
    cases dictGet uid s.contestants with
    | none => rfl
    | some info => simp [h]

/-- C7 witness: the amended theorem applied at a concrete running state with
an unfinished contestant. -/
theorem C7_witness :
    dictGet "222222"
        ((record_finish
          (RaceManager.mk [("222222", ⟨"Bob", "组2", none⟩)] (some 2) true)
          "222222" 7).1).contestants = some ⟨"Bob", "组2", some (7 - 2)⟩ ∧
    (0:ℚ) ≤ 7 - 2 :=
  ⟨(C7_finish_relation.1 (RaceManager.mk [("222222", ⟨"Bob", "组2", none⟩)] (some 2) true)
      "222222" 7 2 ⟨"Bob", "组2", none⟩ rfl (by norm_num [optTruthy])
      (by simp [dictGet]) rfl (by norm_num)).1,
    (C7_finish_relation.1 (RaceManager.mk [("222222", ⟨"Bob", "组2", none⟩)] (some 2) true)
      "222222" 7 2 ⟨"Bob", "组2", none⟩ rfl (by norm_num [optTruthy])
      (by simp [dictGet]) rfl (by norm_num)).2.2⟩

/-! ### Order lemmas for the leaderboard sort -/

theorem lexLt_asymm (a : List Char) : ∀ b : List Char,
    lexLt a b = true → lexLt b a = false := by
  induction a with
  | nil =>
      intro b h
      cases b with
      | nil => simp [lexLt] at h
      | cons y ys => simp [lexLt]
  | cons x xs ih =>
      intro b h
      cases b with
      | nil => simp [lexLt] at h
      | cons y ys =>
          simp only [lexLt] at h ⊢
          by_cases hxy : x < y
          · rw [if_neg (asymm hxy), if_pos hxy]
          · by_cases hyx : y < x
            · rw [if_neg hxy, if_pos hyx] at h
              simp at h
            · rw [if_neg hxy, if_neg hyx] at h
              rw [if_neg hyx, if_neg hxy]
              exact ih ys h

theorem lexLt_trans (a : List Char) : ∀ b c : List Char,
    lexLt a b = true → lexLt b c = true → lexLt a c = true := by
  induction a with
  | nil =>
      intro b c hab hbc
      cases c with
      | nil =>
          cases b with
          | nil => simp [lexLt] at hab
          | cons y ys => simp [lexLt] at hbc
      | cons z zs => simp [lexLt]
  | cons x xs ih =>
      intro b c hab hbc
      cases b with
      | nil => simp [lexLt] at hab
      | cons y ys =>
          cases c with
          | nil => simp [lexLt] at hbc
          | cons z zs =>
              simp only [lexLt] at hab hbc ⊢
              by_cases hxy : x < y
              · by_cases hyz : y < z
                · rw [if_pos (lt_trans hxy hyz)]
                · by_cases hzy : z < y
                  · rw [if_neg hyz, if_pos hzy] at hbc
                    simp at hbc
                  · have hyz' : y = z := le_antisymm (not_lt.mp hzy) (not_lt.mp hyz)
                    rw [if_pos (lt_of_lt_of_le hxy (le_of_eq hyz'))]
              · by_cases hyx : y < x
                · rw [if_neg hxy, if_pos hyx] at hab
                  simp at hab
                · have hxy' : x = y := le_antisymm (not_lt.mp hyx) (not_lt.mp hxy)
                  by_cases hyz : y < z
                  · rw [if_pos (lt_of_le_of_lt (le_of_eq hxy') hyz)]
                  · by_cases hzy : z < y
                    · rw [if_neg hyz, if_pos hzy] at hbc
                      simp at hbc
                    · have hyz' : y = z := le_antisymm (not_lt.mp hzy) (not_lt.mp hyz)
                      rw [if_neg hxy, if_neg hyx] at hab
                      rw [if_neg hyz, if_neg hzy] at hbc
                      have hxz : ¬ x < z := by
                        rw [hxy', hyz']
                        exact lt_irrefl z
                      have hzx : ¬ z < x := by
                        rw [hxy', hyz']
                        exact lt_irrefl z
                      rw [if_neg hxz, if_neg hzx]
                      exact ih ys zs hab hbc

theorem mem_insertRow (x z : Row) (l : List Row) :
    z ∈ insertRow x l ↔ z = x ∨ z ∈ l := by
  induction l with
  | nil => simp [insertRow]
  | cons y ys ih =>
      by_cases h : strLt x.score y.score = true
      · simp [insertRow, h]
      · simp only [insertRow, h, if_false, Bool.false_eq_true, List.mem_cons, ih]
        tauto

theorem insertRow_perm (x : Row) (l : List Row) : (insertRow x l).Perm (x :: l) := by
  induction l with
  | nil => simp [insertRow]
  | cons y ys ih =>
      by_cases h : strLt x.score y.score = true
      · simp [insertRow, h]
      · simp only [insertRow]
        rw [if_neg h]
        exact (ih.cons y).trans (List.Perm.swap x y ys)

theorem sortRows_perm (l : List Row) : (sortRows l).Perm l := by
  induction l with
  | nil => simp [sortRows]
  | cons x xs ih =>
      simp only [sortRows]
      exact (insertRow_perm x (sortRows xs)).trans (ih.cons x)

theorem insertRow_pairwise (x : Row) (l : List Row) (hl : l.Pairwise scoreLE) :
    (insertRow x l).Pairwise scoreLE := by
  induction l with
  | nil => simp [insertRow, scoreLE]
  | cons y ys ih =>
      rcases List.pairwise_cons.mp hl with ⟨hy, hys⟩
      by_cases h : strLt x.score y.score = true
      · simp only [insertRow]
        rw [if_pos h]
        refine List.Pairwise.cons ?_ hl
        intro z hz
        rcases List.mem_cons.mp hz with rfl | hzys
        · exact lexLt_asymm _ _ h
        · have hyz := hy z hzys
          cases hb : strLt z.score x.score
          · exact hb
          · exfalso
            have h2 : strLt z.score y.score = true := lexLt_trans _ _ _ hb h
            rw [hyz] at h2
            simp at h2
      · simp only [insertRow]
        rw [if_neg h]
        refine List.Pairwise.cons ?_ (ih hys)
        intro z hz
        rcases (mem_insertRow x z ys).mp hz with rfl | hzys
        · cases hb : strLt z.score y.score
          · exact hb
          · exact absurd hb h
        · exact hy z hzys

theorem sortRows_pairwise (l : List Row) : (sortRows l).Pairwise scoreLE := by
  induction l with
  | nil => simp [sortRows]
  | cons x xs ih =>
      simp only [sortRows]
      exact insertRow_pairwise x (sortRows xs) ih

theorem c3State_leaderboard :
    (leaderboard c3State).map (fun r => (r.score, r.status)) =
      [("--:--", "进行中/未开始"), ("00:05.01", "已完成"),
       ("00:07.00", "已完成"), ("00:12.34", "已完成")] := by
  have h1 : optTruthy (some (1234/100)) = true := by norm_num [optTruthy]
  have h2 : optTruthy (some (501/100)) = true := by norm_num [optTruthy]
  have h3 : optTruthy (some (7:ℚ)) = true := by norm_num [optTruthy]
  have h4 : optTruthy (none : Option ℚ) = false := rfl
  simp only [leaderboard, get_dataframe, c3State, List.map_cons, List.map_nil,
    rowOf, h1, h2, h3, h4, if_true, if_false, Bool.false_eq_true,
    ftEval_12s34, ftEval_5s01, ftEval_7]
  decide

/-- C3 counterexample: on finish times [12.34 s, 5.01 s, none, 7.00 s] the
leaderboard comes back `[none-entry, 5.01, 7.00, 12.34]` — the contestant
without a finish time sorts FIRST, not last, because rows are ordered by the
formatted score string and the sentinel `"--:--"` is lexicographically below
every `"MM:SS.CC"`. -/
theorem C3_counterexample :
    (leaderboard c3State).map (fun r => (r.score, r.status)) =
      [("--:--", "进行中/未开始"), ("00:05.01", "已完成"),
       ("00:07.00", "已完成"), ("00:12.34", "已完成")] ∧
    (leaderboard c3State).map (fun r => (r.score, r.status)) ≠
      [("00:05.01", "已完成"), ("00:07.00", "已完成"),
       ("00:12.34", "已完成"), ("--:--", "进行中/未开始")] := by
  refine ⟨c3State_leaderboard, ?_⟩
  rw [c3State_leaderboard]
  decide

/-- C3 (amended): the leaderboard snapshot is a permutation of the dataframe
rows sorted ascending by the formatted score string; finished contestants
therefore appear in ascending order of their formatted times, but the
unfinished sentinel `"--:--"` sorts BEFORE every finished row (it is
lexicographically smallest), as the concrete example [12.34 s, 5.01 s, none,
7.00 s] → [none-entry, 5.01, 7.00, 12.34] shows. -/
theorem C3_sort_order :
    (∀ s : RaceManager, (leaderboard s).Perm (get_dataframe s)) ∧
    (∀ s : RaceManager, (leaderboard s).Pairwise scoreLE) ∧
    (leaderboard c3State).map (fun r => (r.score, r.status)) =
      [("--:--", "进行中/未开始"), ("00:05.01", "已完成"),
       ("00:07.00", "已完成"), ("00:12.34", "已完成")] :=
  ⟨fun _ => sortRows_perm _, fun _ => sortRows_pairwise _, c3State_leaderboard⟩
